import Mathlib

/-!
Shallow embedding of decentraland/metaverse-rpc, file src/common/json-rpc/Client.ts
(the JSON-RPC client peer, the proxy facade `api`, the component registry and
the ComponentSystem), together with theorems settling the frozen claims.

Modelling conventions:

* JavaScript runtime values that can appear as JSON-RPC payloads are modelled
  by `JsValue`; `undefined` is included because property access on an object
  missing a key yields `undefined` and because `call`/`notify` distinguish
  absent parameters via `typeof params != "undefined"`.  Numbers are `Int`
  (no claim involves fractional values or NaN).
* `JSON.parse` is abstracted: `processMessage` takes the parse outcome,
  `none` for a parse failure and `some v` for the parsed value.  All claims
  about `processMessage` quantify over the parsed value.
* The serialized string pushed on `_requestQueue` by `JSON.stringify(message)`
  is modelled by the `WireMessage` it serializes; `JSON.stringify` is
  injective on these request/notification objects, so ordering statements
  transfer verbatim.
* Calls to `this.emit`, `promise.resolve`, `promise.reject` and the abstract
  `sendMessage` are modelled as an emitted list of `ClientEvent`s; none of
  them touches the fields of the client, exactly as in the source.
-/

inductive JsValue where
  | undefined : JsValue
  | null : JsValue
  | bool : Bool → JsValue
  | num : Int → JsValue
  | str : String → JsValue
  | arr : List JsValue → JsValue
  | obj : List (String × JsValue) → JsValue

/-- JavaScript truthiness for the values of `JsValue`. -/
def truthy : JsValue → Bool
  | .undefined => false
  | .null => false
  | .bool b => b
  | .num n => n != 0
  | .str s => s != ""
  | .arr _ => true
  | .obj _ => true

/-- JavaScript `typeof`, restricted to the values of `JsValue`. -/
def typeofJs : JsValue → String
  | .undefined => "undefined"
  | .null => "object"
  | .bool _ => "boolean"
  | .num _ => "number"
  | .str _ => "string"
  | .arr _ => "object"
  | .obj _ => "object"

/-- First-occurrence association lookup.  `JSON.parse` already collapses
duplicate keys (last one wins), so parsed objects have unique keys and the
first occurrence is the occurrence. -/
def lookupAssoc : List (String × JsValue) → String → Option JsValue
  | [], _ => none
  | (k0, v0) :: rest, k => if k0 = k then some v0 else lookupAssoc rest k

/-- Property access `v[k]`: a missing key, or access on a non-object, yields
`undefined`.  (Access on `null` would throw in JavaScript, but every use in
the source is guarded by a truthiness check that rules `null` out.) -/
def getField (v : JsValue) (k : String) : JsValue :=
  match v with
  | .obj fs => match lookupAssoc fs k with
    | some w => w
    | none => .undefined
  | _ => .undefined

/-- `e[k] = v` on a record of own fields: overwrite the existing binding or
append a fresh one. -/
def setField : List (String × JsValue) → String → JsValue → List (String × JsValue)
  | [], k, v => [(k, v)]
  | (k0, v0) :: rest, k, v =>
    if k0 = k then (k0, v) :: rest else (k0, v0) :: setField rest k v

/-- `Object.assign(target, source)`: copy every own enumerable property of the
source onto the target, in order.  A string source contributes its index
properties, an array its element indices; other primitives contribute
nothing. -/
def objectAssign (base : List (String × JsValue)) : JsValue → List (String × JsValue)
  | .obj fs => fs.foldl (fun e kv => setField e kv.1 kv.2) base
  | .arr xs => (xs.enum.map (fun p => (toString p.1, p.2))).foldl
      (fun e kv => setField e kv.1 kv.2) base
  | .str s => (s.toList.enum.map (fun p => (toString p.1, JsValue.str (String.singleton p.2)))).foldl
      (fun e kv => setField e kv.1 kv.2) base
  | _ => base

/-- The error built at Client.ts line 50:
`Object.assign(new Error("Remote error"), message.error)`.
The fresh error instance owns its `message` field, which `Object.assign`
overwrites when the remote error object carries one. -/
def remoteError (e : JsValue) : List (String × JsValue) :=
  objectAssign [("message", JsValue.str "Remote error")] e

/-- The message objects whose `JSON.stringify` output is pushed on
`_requestQueue`: `{id, method, params}` requests and `{method, params}`
notifications. -/
inductive WireMessage where
  | request : Int → String → JsValue → WireMessage
  | notification : String → JsValue → WireMessage

/-- Identification of the protocol errors emitted as the error event by
`processMessage` (each constructor corresponds to one `new Error(...)` site
in the source). -/
inductive ProtoErr where
  | parseFailure : ProtoErr
  | nullMessage : ProtoErr
  | noPendingRequest : JsValue → ProtoErr
  | mustHaveResultOrError : ProtoErr
  | invalidMessage : ProtoErr

/-- The externally observable actions of the client: event emission, settling
a pending promise (identified by its request id), and handing a serialized
message to the abstract transport `sendMessage`. -/
inductive ClientEvent where
  | errorEvent : ProtoErr → ClientEvent
  | notifyEvent : JsValue → JsValue → ClientEvent
  | resolve : JsValue → JsValue → ClientEvent
  | reject : JsValue → List (String × JsValue) → ClientEvent
  | send : WireMessage → ClientEvent

/-- The mutable fields of `Client`.  `_responsePromiseMap` maps request ids to
completion handles; since a handle is determined by its id, the map is kept
as the list of pending ids. -/
structure ClientState where
  responsePromiseMap : List Int
  nextMessageId : Int
  requestQueue : List WireMessage
  connected : Bool

def initialClientState : ClientState :=
  { responsePromiseMap := [], nextMessageId := 0, requestQueue := [], connected := false }

/-- `Map.has(message.id)`: the map keys are the numeric ids allocated by
`call`, so a non-numeric id never matches. -/
def promiseMapHas (m : List Int) : JsValue → Bool
  | .num n => m.contains n
  | _ => false

/-- `_sendQueuedRequests`: when connected, splice the whole queue and hand
each message to `sendMessage` in order. -/
def sendQueuedRequests (st : ClientState) : ClientState × List ClientEvent :=
  if st.connected then
    ({ st with requestQueue := [] }, st.requestQueue.map ClientEvent.send)
  else (st, [])

/-- `_send`: push the serialized message, then flush if connected. -/
def sendMsg (st : ClientState) (w : WireMessage) : ClientState × List ClientEvent :=
  sendQueuedRequests { st with requestQueue := st.requestQueue ++ [w] }

/-- `didConnect`: on the first call flip `_connected` and flush the queue;
later calls do nothing. -/
def didConnect (st : ClientState) : ClientState × List ClientEvent :=
  if st.connected = false then
    sendQueuedRequests { st with connected := true }
  else (st, [])

def structuredDataMsg : String := "Params must be structured data (Array | Object)"

/-- The guard shared by `call` and `notify`:
`typeof params != "undefined" && typeof params != "object"` throws. -/
def paramsArgOk (p : JsValue) : Bool :=
  typeofJs p == "undefined" || typeofJs p == "object"

/-- `call(method, params)`: guard the params, pre-increment `_nextMessageId`,
record the completion handle, then `_send` the request.  A thrown guard is an
`Except.error`; the `this` object is left untouched by a throw because the
guard is the first statement. -/
def call (st : ClientState) (method : String) (params : JsValue) :
    Except String (ClientState × List ClientEvent) :=
  if paramsArgOk params = false then
    .error structuredDataMsg
  else
    let id := st.nextMessageId + 1
    let st1 := { st with
      nextMessageId := id,
      responsePromiseMap := st.responsePromiseMap ++ [id] }
    .ok (sendMsg st1 (.request id method params))

/-- `notify(method, params)`: guard the params, then `_send` the
notification. -/
def notify (st : ClientState) (method : String) (params : JsValue) :
    Except String (ClientState × List ClientEvent) :=
  if paramsArgOk params = false then
    .error structuredDataMsg
  else
    .ok (sendMsg st (.notification method params))

/-- The state observed on the client after invoking `call`, whether the guard
threw or not (a throw aborts before any mutation). -/
def callState (st : ClientState) (method : String) (params : JsValue) : ClientState :=
  match call st method params with
  | .ok r => r.1
  | .error _ => st

/-- The events produced by an invocation of `call` (none when the guard
threw). -/
def callEvents (st : ClientState) (method : String) (params : JsValue) : List ClientEvent :=
  match call st method params with
  | .ok r => r.2
  | .error _ => []

def notifyState (st : ClientState) (method : String) (params : JsValue) : ClientState :=
  match notify st method params with
  | .ok r => r.1
  | .error _ => st

def notifyEvents (st : ClientState) (method : String) (params : JsValue) : List ClientEvent :=
  match notify st method params with
  | .ok r => r.2
  | .error _ => []

/-- `processMessage(messageStr)` after `JSON.parse`: `parsed = none` models a
parse exception.  Every branch of the source only emits, resolves or rejects;
none of them writes a field of `this`, and in particular no branch deletes
the id from `_responsePromiseMap`. -/
def processMessage (st : ClientState) (parsed : Option JsValue) :
    ClientState × List ClientEvent :=
  match parsed with
  | none => (st, [.errorEvent .parseFailure])
  | some msg =>
    if truthy msg = false then
      (st, [.errorEvent .nullMessage])
    else if truthy (getField msg "id") then
      if promiseMapHas st.responsePromiseMap (getField msg "id") then
        if truthy (getField msg "result") then
          (st, [.resolve (getField msg "id") (getField msg "result")])
        else if truthy (getField msg "error") then
          (st, [.reject (getField msg "id") (remoteError (getField msg "error"))])
        else
          (st, [.errorEvent .mustHaveResultOrError])
      else
        (st, [.errorEvent (.noPendingRequest (getField msg "id"))])
    else if truthy (getField msg "method") then
      (st, [.notifyEvent (getField msg "method") (getField msg "params")])
    else
      (st, [.errorEvent .invalidMessage])

/-- The messages a list of events hands to the transport, in order. -/
def sentOf (evs : List ClientEvent) : List WireMessage :=
  evs.filterMap fun e =>
    match e with
    | .send w => some w
    | _ => none

theorem sentOf_nil : sentOf [] = [] := rfl

theorem sentOf_single_send (w : WireMessage) :
    sentOf [ClientEvent.send w] = [w] := rfl

theorem sentOf_append (a b : List ClientEvent) :
    sentOf (a ++ b) = sentOf a ++ sentOf b := by
  simp [sentOf]

theorem sentOf_map_send (l : List WireMessage) :
    sentOf (l.map ClientEvent.send) = l := by
  induction l with
  | nil => rfl
  | cons x xs ih => simpa [sentOf] using ih

/-- The externally triggered operations of a client: the public methods
`call`, `notify`, `processMessage` and the transport signal `didConnect`. -/
inductive Op where
  | opCall : String → JsValue → Op
  | opNotify : String → JsValue → Op
  | opConnect : Op
  | opProcess : Option JsValue → Op

/-- One operation against the client.  A `call` or `notify` whose guard threw
leaves the state as it was and produces no event. -/
def step (st : ClientState) : Op → ClientState × List ClientEvent
  | .opCall m p => (callState st m p, callEvents st m p)
  | .opNotify m p => (notifyState st m p, notifyEvents st m p)
  | .opConnect => didConnect st
  | .opProcess j => processMessage st j

/-- Run a sequence of operations, accumulating the emitted events in order. -/
def run (st : ClientState) : List Op → ClientState × List ClientEvent
  | [] => (st, [])
  | op :: ops =>
    let r := step st op
    let r2 := run r.1 ops
    (r2.1, r.2 ++ r2.2)

/-- The messages an operation submits for transmission (the serialized
objects pushed on `_requestQueue`), before any flushing. -/
def submittedOf (st : ClientState) : Op → List WireMessage
  | .opCall m p =>
    if paramsArgOk p then [.request (st.nextMessageId + 1) m p] else []
  | .opNotify m p =>
    if paramsArgOk p then [.notification m p] else []
  | _ => []

/-- The messages a run submits, in submission order. -/
def submittedRun (st : ClientState) : List Op → List WireMessage
  | [] => []
  | op :: ops => submittedOf st op ++ submittedRun (step st op).1 ops

/-- The send-queue invariant of the spec: the queue is non-empty only while
the peer is not connected. -/
def QueueInv (st : ClientState) : Prop :=
  st.connected = true → st.requestQueue = []

/-- Every branch of `processMessage` that finds the id of the message in the
pending-call table leaves the client state untouched and emits exactly one
action, selected by the truthiness of the `result` and `error` fields. -/
theorem processMessage_pending (st : ClientState) (msg : JsValue) (n : Int)
    (hid : getField msg "id" = JsValue.num n) (hn : n ≠ 0)
    (hmem : st.responsePromiseMap.contains n = true) :
    processMessage st (some msg) = (st,
      [ if truthy (getField msg "result") then
          ClientEvent.resolve (JsValue.num n) (getField msg "result")
        else if truthy (getField msg "error") then
          ClientEvent.reject (JsValue.num n) (remoteError (getField msg "error"))
        else ClientEvent.errorEvent ProtoErr.mustHaveResultOrError ]) := by
  have hobj : truthy msg = true := by
    cases msg <;> first
      | rfl
      | (exfalso; simp [getField] at hid)
  have hidt : truthy (JsValue.num n) = true := by
    simpa [truthy] using hn
  have hhas : promiseMapHas st.responsePromiseMap (JsValue.num n) = true := by
    simpa [promiseMapHas] using hmem
  simp [processMessage, hobj, hid, hidt, hhas]
  split_ifs <;> rfl

/-- Last-occurrence lookup: the binding `Object.assign` leaves in place when
the source object lists a key several times. -/
def lookupLast : List (String × JsValue) → String → Option JsValue
  | [], _ => none
  | (k0, v0) :: rest, k =>
    match lookupLast rest k with
    | some v => some v
    | none => if k0 = k then some v0 else none

theorem lookupAssoc_setField (e : List (String × JsValue)) (k k' : String) (v : JsValue) :
    lookupAssoc (setField e k v) k' = if k = k' then some v else lookupAssoc e k' := by
  induction e with
  | nil => simp [setField, lookupAssoc]
  | cons kv rest ih =>
    obtain ⟨k0, v0⟩ := kv
    by_cases h0 : k0 = k
    · subst h0
      by_cases h1 : k0 = k' <;> simp [setField, lookupAssoc, h1]
    · by_cases h1 : k0 = k'
      · subst h1
        have h2 : ¬ k = k0 := fun h => h0 h.symm
        simp [setField, lookupAssoc, h0, h2]
      · simp [setField, lookupAssoc, h0, h1, ih]

theorem assignFold_not_found (fs : List (String × JsValue))
    (base : List (String × JsValue)) (k : String) (h : lookupLast fs k = none) :
    lookupAssoc (fs.foldl (fun e kv => setField e kv.1 kv.2) base) k =
      lookupAssoc base k := by
  induction fs generalizing base with
  | nil => rfl
  | cons kv rest ih =>
    obtain ⟨k0, v0⟩ := kv
    simp only [lookupLast] at h
    have hrest : lookupLast rest k = none := by
      cases hr : lookupLast rest k with
      | none => rfl
      | some v => rw [hr] at h; cases h
    rw [hrest] at h
    have hk0 : ¬ k0 = k := by
      by_cases hk : k0 = k
      · rw [if_pos hk] at h; cases h
      · exact hk
    rw [List.foldl_cons, ih _ hrest, lookupAssoc_setField]
    exact if_neg hk0

theorem assignFold_found (fs : List (String × JsValue))
    (base : List (String × JsValue)) (k : String) (v : JsValue)
    (h : lookupLast fs k = some v) :
    lookupAssoc (fs.foldl (fun e kv => setField e kv.1 kv.2) base) k = some v := by
  induction fs generalizing base with
  | nil => cases h
  | cons kv rest ih =>
    obtain ⟨k0, v0⟩ := kv
    simp only [lookupLast] at h
    rw [List.foldl_cons]
    cases hr : lookupLast rest k with
    | some w =>
      rw [hr] at h
      cases h
      exact ih _ hr
    | none =>
      rw [hr] at h
      have hEq : k0 = k ∧ v0 = v := by
        by_cases hk : k0 = k
        · rw [if_pos hk] at h
          cases h
          exact ⟨hk, rfl⟩
        · rw [if_neg hk] at h; cases h
      rw [assignFold_not_found rest _ k hr, lookupAssoc_setField, hEq.1, if_pos rfl,
        hEq.2]

theorem remoteError_field (fs : List (String × JsValue)) (k : String) (v : JsValue)
    (h : lookupLast fs k = some v) :
    lookupAssoc (remoteError (JsValue.obj fs)) k = some v := by
  simpa [remoteError, objectAssign] using assignFold_found fs _ k v h

/-- Recognizers used to state which action a branch of `processMessage`
performed. -/
def isResolveEvent : ClientEvent → Bool
  | .resolve _ _ => true
  | _ => false

def isErrorEvent : ClientEvent → Bool
  | .errorEvent _ => true
  | _ => false

/-- A client state with request id 1 pending. -/
def stPending1 : ClientState :=
  { responsePromiseMap := [1], nextMessageId := 1, requestQueue := [], connected := true }

/-- The parsed response `{"id": 1, "result": 0}`. -/
def msgResultZero : JsValue :=
  .obj [("id", .num 1), ("result", .num 0)]

/-- The parsed response `{"id": 1, "result": 7}`. -/
def msgResult7 : JsValue :=
  .obj [("id", .num 1), ("result", .num 7)]

/-- No branch of `processMessage` writes any field of the client. -/
theorem processMessage_fst (st : ClientState) (parsed : Option JsValue) :
    (processMessage st parsed).1 = st := by
  cases parsed with
  | none => rfl
  | some msg =>
    simp only [processMessage]
    split_ifs <;> rfl

/-- No branch of `processMessage` hands a message to the transport. -/
theorem processMessage_no_send (st : ClientState) (parsed : Option JsValue) :
    sentOf (processMessage st parsed).2 = [] := by
  cases parsed with
  | none => rfl
  | some msg =>
    simp only [processMessage]
    split_ifs <;> rfl

/-- C1 (counterexample): with request id 1 pending, the response
`{"id": 1, "result": 0}` has its `result` field present, yet the promise is
not resolved: the source tests `if (message.result)` by truthiness, so the
falsy result 0 falls through and the client only emits the
response-must-have-result-or-error error event. -/
theorem c1_counterexample :
    processMessage stPending1 (some msgResultZero)
      = (stPending1, [ClientEvent.errorEvent ProtoErr.mustHaveResultOrError]) ∧
    (processMessage stPending1 (some msgResultZero)).2.any isResolveEvent = false := by
  exact ⟨rfl, rfl⟩

/-- C1 (amended): for a response whose id is a nonzero number found in the
pending-call table, the pending promise is resolved when the `result` field
is truthy; otherwise, when the `error` field is truthy, the promise is
rejected; otherwise (in particular for every falsy `result` such as 0,
false, null or the empty string, when `error` is also falsy) the client
emits the response-must-have-result-or-error error event. -/
theorem c1_amended_resolution (st : ClientState) (msg : JsValue) (n : Int)
    (hid : getField msg "id" = JsValue.num n) (hn : n ≠ 0)
    (hmem : st.responsePromiseMap.contains n = true) :
    (truthy (getField msg "result") = true →
      processMessage st (some msg)
        = (st, [ClientEvent.resolve (JsValue.num n) (getField msg "result")])) ∧
    (truthy (getField msg "result") = false → truthy (getField msg "error") = true →
      processMessage st (some msg)
        = (st, [ClientEvent.reject (JsValue.num n)
            (remoteError (getField msg "error"))])) ∧
    (truthy (getField msg "result") = false → truthy (getField msg "error") = false →
      processMessage st (some msg)
        = (st, [ClientEvent.errorEvent ProtoErr.mustHaveResultOrError])) := by
  refine ⟨fun h1 => ?_, fun h1 h2 => ?_, fun h1 h2 => ?_⟩ <;>
    rw [processMessage_pending st msg n hid hn hmem] <;>
    simp [h1]
  · simp [h2]
  · simp [h2]

/-- C1 (witness): the truthy result 7 for pending id 1 is resolved. -/
theorem c1_witness :
    processMessage stPending1 (some msgResult7)
      = (stPending1, [ClientEvent.resolve (JsValue.num 1) (JsValue.num 7)]) := by
  exact (c1_amended_resolution stPending1 msgResult7 1 rfl (by decide) rfl).1 rfl

/-- C2 (counterexample): after the response `{"id": 1, "result": 7}` is
processed for pending id 1, the id is still in the pending-call table, and a
second copy of the same response resolves the same promise again instead of
being treated as a response with no pending request: no error event is
emitted for it. -/
theorem c2_counterexample :
    (processMessage stPending1 (some msgResult7)).1.responsePromiseMap = [1] ∧
    processMessage (processMessage stPending1 (some msgResult7)).1 (some msgResult7)
      = (stPending1, [ClientEvent.resolve (JsValue.num 1) (JsValue.num 7)]) ∧
    (processMessage (processMessage stPending1 (some msgResult7)).1
        (some msgResult7)).2.any isResolveEvent = true ∧
    (processMessage (processMessage stPending1 (some msgResult7)).1
        (some msgResult7)).2.any isErrorEvent = false := by
  exact ⟨rfl, rfl, rfl, rfl⟩

/-- C2 (amended): `processMessage` removes the id from the pending-call table
in none of the three branches; it never modifies any field of the client, so
a second response carrying the same id is processed exactly like the first
(settling the same promise again) rather than being reported as a response
with no pending request. -/
theorem c2_pending_table_unchanged (st : ClientState) (parsed : Option JsValue) :
    (processMessage st parsed).1 = st ∧
    processMessage (processMessage st parsed).1 parsed = processMessage st parsed := by
  exact ⟨processMessage_fst st parsed, by rw [processMessage_fst]⟩

/-- C3: `call` and `notify` with a params value that is neither absent nor of
JavaScript type object (a number, string or boolean) throw synchronously
with the structured-data message; the client state is untouched (no id is
allocated, no pending entry is added, nothing is queued) and no message
reaches the transport. -/
theorem c3_params_guard (st : ClientState) (m : String) (p : JsValue)
    (h : typeofJs p ≠ "undefined" ∧ typeofJs p ≠ "object") :
    call st m p = Except.error structuredDataMsg ∧
    notify st m p = Except.error structuredDataMsg ∧
    callState st m p = st ∧ callEvents st m p = [] ∧
    notifyState st m p = st ∧ notifyEvents st m p = [] := by
  have hok : paramsArgOk p = false := by
    simp only [paramsArgOk, Bool.or_eq_false_iff, beq_eq_false_iff_ne]
    exact h
  refine ⟨?_, ?_, ?_, ?_, ?_, ?_⟩ <;>
    simp [call, notify, callState, callEvents, notifyState, notifyEvents, hok]

/-- C3 (witness): calling with the number 5 as params throws and changes
nothing. -/
theorem c3_witness :
    call initialClientState "m" (JsValue.num 5) = Except.error structuredDataMsg ∧
    notify initialClientState "m" (JsValue.num 5) = Except.error structuredDataMsg ∧
    callState initialClientState "m" (JsValue.num 5) = initialClientState := by
  obtain ⟨a, b, c, -, -, -⟩ :=
    c3_params_guard initialClientState "m" (JsValue.num 5) ⟨by decide, by decide⟩
  exact ⟨a, b, c⟩

/-- C5: a response for a pending nonzero numeric id whose `result` is falsy
and whose `error` field is an object rejects the promise with the error
built by copying the remote fields over a fresh error whose own message is
"Remote error"; the copied `message` field is the remote message, and every
field of the remote error object (in particular `code`, `data` and `stack`)
is retained in the constructed error. -/
theorem c5_remote_error_fields (st : ClientState) (msg : JsValue) (n : Int)
    (fs : List (String × JsValue)) (m : String)
    (hid : getField msg "id" = JsValue.num n) (hn : n ≠ 0)
    (hmem : st.responsePromiseMap.contains n = true)
    (hres : truthy (getField msg "result") = false)
    (herr : getField msg "error" = JsValue.obj fs)
    (hmsg : lookupLast fs "message" = some (JsValue.str m)) :
    processMessage st (some msg)
      = (st, [ClientEvent.reject (JsValue.num n) (remoteError (JsValue.obj fs))]) ∧
    lookupAssoc (remoteError (JsValue.obj fs)) "message" = some (JsValue.str m) ∧
    (∀ k v, lookupLast fs k = some v →
      lookupAssoc (remoteError (JsValue.obj fs)) k = some v) := by
  refine ⟨?_, remoteError_field fs "message" _ hmsg,
    fun k v hk => remoteError_field fs k v hk⟩
  rw [processMessage_pending st msg n hid hn hmem, hres, herr]
  simp [truthy]

/-- C5 (witness): the remote error
`{"message": "boom", "code": -32000, "stack": "tr"}` for pending id 1
rejects with an error whose message field reads "boom" and whose code and
stack fields are retained. -/
theorem c5_witness :
    processMessage stPending1
        (some (.obj [("id", .num 1),
          ("error", .obj [("message", .str "boom"), ("code", .num (-32000)),
            ("stack", .str "tr")])]))
      = (stPending1, [ClientEvent.reject (JsValue.num 1)
          (remoteError (JsValue.obj [("message", .str "boom"),
            ("code", .num (-32000)), ("stack", .str "tr")]))]) ∧
    lookupAssoc (remoteError (JsValue.obj [("message", .str "boom"),
        ("code", .num (-32000)), ("stack", .str "tr")])) "message"
      = some (JsValue.str "boom") ∧
    lookupAssoc (remoteError (JsValue.obj [("message", .str "boom"),
        ("code", .num (-32000)), ("stack", .str "tr")])) "code"
      = some (JsValue.num (-32000)) := by
  obtain ⟨a, b, c⟩ := c5_remote_error_fields stPending1
    (.obj [("id", .num 1),
      ("error", .obj [("message", .str "boom"), ("code", .num (-32000)),
        ("stack", .str "tr")])])
    1 [("message", .str "boom"), ("code", .num (-32000)), ("stack", .str "tr")]
    "boom" rfl (by decide) rfl rfl rfl rfl
  exact ⟨a, b, c "code" (JsValue.num (-32000)) rfl⟩

/-- C10: `call(m, null)` and `notify(m, null)` pass the structured-data
guard, because `typeof null` is the string "object"; the request (with the
freshly allocated id) and the notification are serialized carrying params
null, and in every connection state that message is the last one submitted
(sent when connected, queued otherwise). -/
theorem c10_null_params (st : ClientState) (m : String) :
    typeofJs JsValue.null = "object" ∧
    call st m JsValue.null ≠ Except.error structuredDataMsg ∧
    notify st m JsValue.null ≠ Except.error structuredDataMsg ∧
    sentOf (callEvents st m JsValue.null) ++ (callState st m JsValue.null).requestQueue
      = st.requestQueue ++ [WireMessage.request (st.nextMessageId + 1) m JsValue.null] ∧
    sentOf (notifyEvents st m JsValue.null) ++ (notifyState st m JsValue.null).requestQueue
      = st.requestQueue ++ [WireMessage.notification m JsValue.null] := by
  refine ⟨rfl, ?_, ?_, ?_, ?_⟩ <;>
    cases hc : st.connected <;>
    simp [call, notify, callState, callEvents, notifyState, notifyEvents,
      sendMsg, sendQueuedRequests, paramsArgOk, typeofJs, hc, sentOf_map_send,
      sentOf_nil, sentOf_append, sentOf_single_send]

/-- One operation moves the pair (messages already handed to the transport,
messages still queued) forward by exactly the messages it submits, keeping
submission order. -/
theorem step_fifo (st : ClientState) (op : Op) :
    sentOf (step st op).2 ++ (step st op).1.requestQueue
      = st.requestQueue ++ submittedOf st op := by
  cases op with
  | opCall m p =>
    by_cases hp : paramsArgOk p = false
    · simp [step, callState, callEvents, call, submittedOf, hp, sentOf_nil]
    · have ht : paramsArgOk p = true := by
        cases hpv : paramsArgOk p
        · exact absurd hpv hp
        · rfl
      cases hc : st.connected <;>
        simp [step, callState, callEvents, call, submittedOf, hp, ht, sendMsg,
          sendQueuedRequests, hc, sentOf_nil, sentOf_append, sentOf_single_send,
          sentOf_map_send]
  | opNotify m p =>
    by_cases hp : paramsArgOk p = false
    · simp [step, notifyState, notifyEvents, notify, submittedOf, hp, sentOf_nil]
    · have ht : paramsArgOk p = true := by
        cases hpv : paramsArgOk p
        · exact absurd hpv hp
        · rfl
      cases hc : st.connected <;>
        simp [step, notifyState, notifyEvents, notify, submittedOf, hp, ht, sendMsg,
          sendQueuedRequests, hc, sentOf_nil, sentOf_append, sentOf_single_send,
          sentOf_map_send]
  | opConnect =>
    cases hc : st.connected <;>
      simp [step, didConnect, sendQueuedRequests, submittedOf, hc, sentOf_nil,
        sentOf_map_send]
  | opProcess j =>
    simp [step, processMessage_fst, processMessage_no_send, submittedOf]

/-- Over a whole run, the transported messages followed by the still-queued
messages are exactly the initial queue followed by the submitted messages,
in submission order. -/
theorem run_fifo (st : ClientState) (ops : List Op) :
    sentOf (run st ops).2 ++ (run st ops).1.requestQueue
      = st.requestQueue ++ submittedRun st ops := by
  induction ops generalizing st with
  | nil => simp [run, submittedRun, sentOf_nil]
  | cons op ops ih =>
    simp only [run, submittedRun, sentOf_append]
    rw [List.append_assoc, ih, ← List.append_assoc, step_fifo, List.append_assoc]

/-- Every operation preserves the queue invariant. -/
theorem step_queueInv (st : ClientState) (op : Op) (h : QueueInv st) :
    QueueInv (step st op).1 := by
  have base : ∀ w, QueueInv (sendMsg st w).1 := by
    intro w
    cases hc : st.connected with
    | false =>
      intro hcon
      simp [sendMsg, sendQueuedRequests, hc] at hcon
    | true =>
      intro _
      simp [sendMsg, sendQueuedRequests, hc]
  cases op with
  | opCall m p =>
    by_cases hp : paramsArgOk p = false
    · simpa [step, callState, call, hp] using h
    · have : callState st m p
          = (sendMsg { st with
              nextMessageId := st.nextMessageId + 1,
              responsePromiseMap := st.responsePromiseMap ++ [st.nextMessageId + 1] }
            (.request (st.nextMessageId + 1) m p)).1 := by
        simp [callState, call, hp]
      intro hcon
      rw [step] at hcon ⊢
      rw [this] at hcon ⊢
      revert hcon
      cases hc : st.connected with
      | false => intro hcon; simp [sendMsg, sendQueuedRequests, hc] at hcon
      | true => intro _; simp [sendMsg, sendQueuedRequests, hc]
  | opNotify m p =>
    by_cases hp : paramsArgOk p = false
    · simpa [step, notifyState, notify, hp] using h
    · have : notifyState st m p = (sendMsg st (.notification m p)).1 := by
        simp [notifyState, notify, hp]
      rw [step, this]
      exact base _
  | opConnect =>
    cases hc : st.connected with
    | false =>
      intro _
      simp [step, didConnect, sendQueuedRequests, hc]
    | true =>
      simpa [step, didConnect, hc] using h
  | opProcess j =>
    simpa [step, processMessage_fst] using h

/-- C4: the send queue is non-empty only while the peer is not connected
(the invariant is preserved by every operation); `didConnect` is idempotent,
the first call setting `connected` and draining the queue in order and every
later call doing nothing; and over any sequence of operations the messages
handed to the transport followed by the messages still queued are exactly
the initial queue followed by the submitted messages in submission order,
so the transport observes submitted messages in FIFO order. -/
theorem c4_fifo_connect :
    (∀ st op, QueueInv st → QueueInv (step st op).1) ∧
    (∀ st : ClientState, st.connected = false →
      (didConnect st).1 = { st with connected := true, requestQueue := [] } ∧
      (didConnect st).2 = st.requestQueue.map ClientEvent.send) ∧
    (∀ st : ClientState, st.connected = true → didConnect st = (st, [])) ∧
    (∀ st ops, sentOf (run st ops).2 ++ (run st ops).1.requestQueue
      = st.requestQueue ++ submittedRun st ops) := by
  refine ⟨step_queueInv, fun st hc => ?_, fun st hc => ?_, run_fifo⟩
  · constructor <;> simp [didConnect, sendQueuedRequests, hc]
  · simp [didConnect, hc]

/-- C4 (witness): concrete instances of the three hypothesized parts, at a
fresh client and at a connected client with an empty queue. -/
theorem c4_witness :
    QueueInv (step initialClientState (Op.opCall "A" (JsValue.arr []))).1 ∧
    (didConnect initialClientState).1
      = { initialClientState with connected := true, requestQueue := [] } ∧
    didConnect stPending1 = (stPending1, []) := by
  refine ⟨c4_fifo_connect.1 initialClientState _ ?_,
    (c4_fifo_connect.2.1 initialClientState rfl).1,
    c4_fifo_connect.2.2.1 stPending1 rfl⟩
  intro h
  cases h

/-!
Component registry and ComponentSystem (second part of the source file).

A class is a JavaScript function object; the hidden `componentNameSymbol`
property that `_registerComponent` writes on it is kept in a side table keyed
by class identity (`cid`), which is the language-neutral rendering of the
symbol tag.  `registeredComponents` is the process-wide dictionary.
Prototype-inherited keys of the plain-object dictionary are not modelled; no
claim depends on them.
-/

structure JsClass where
  cid : Nat
  isFunc : Bool

structure RegistryState where
  classTags : List (Nat × String)
  registeredComponents : List (String × Nat)

def emptyRegistry : RegistryState :=
  { classTags := [], registeredComponents := [] }

def lookupTag : List (Nat × String) → Nat → Option String
  | [], _ => none
  | (c0, t0) :: rest, c => if c0 = c then some t0 else lookupTag rest c

def lookupReg : List (String × Nat) → String → Option Nat
  | [], _ => none
  | (n0, c0) :: rest, n => if n0 = n then some c0 else lookupReg rest n

/-- `PrivateHelpers._registerComponent`: reject a class already carrying the
tag, then a name already in the dictionary, then a non-function argument;
otherwise write the tag and insert into the dictionary. -/
def registerComponentImpl (st : RegistryState) (componentName : String)
    (api : JsClass) : Except String RegistryState :=
  if (lookupTag st.classTags api.cid).isSome then
    .error "The API you are trying to register is already registered"
  else if (lookupReg st.registeredComponents componentName).isSome then
    .error ("The API " ++ componentName ++ " is already registered")
  else if api.isFunc = false then
    .error ("The API " ++ componentName ++ " is not a class")
  else
    .ok { classTags := st.classTags ++ [(api.cid, componentName)],
          registeredComponents :=
            st.registeredComponents ++ [(componentName, api.cid)] }

/-- `registerComponent(name)` produces the decorator that runs
`PrivateHelpers._registerComponent(name, klass)`. -/
def registerComponent (componentName : String) (api : JsClass)
    (st : RegistryState) : Except String RegistryState :=
  registerComponentImpl st componentName api

/-- `getComponentName`: read the tag through `(klass)[componentNameSymbol] ||
null`, so a falsy tag (the empty string) reads back as null. -/
def getComponentName (st : RegistryState) (api : JsClass) : Option String :=
  match lookupTag st.classTags api.cid with
  | some t => if t = "" then none else some t
  | none => none

def isErr {ε α : Type} : Except ε α → Bool
  | .error _ => true
  | .ok _ => false

/-!
Component lifecycle hooks.  A hook, when defined, either throws
synchronously, or returns a value; a returned value is only inspected for
`promise && "catch" in promise`, and a rejected promise with a `catch`
method has its rejection routed to `console.error`.
-/

inductive HookBehavior where
  | throwSync : String → HookBehavior
  | retFalsy : HookBehavior
  | retNoCatch : HookBehavior
  | retPromise : Option String → HookBehavior

structure Component where
  componentDidMount : Option HookBehavior
  componentWillUnmount : Option HookBehavior

/-- Run one lifecycle hook as `mountComponent` / `unmountComponent` do:
returns the `console.error` log entries and, separately, an exception that
escaped to the caller (`some e` exactly when the hook threw synchronously;
a rejected returned promise is caught by the attached `.catch` and only
logged). -/
def runHook (logMsg : String) : Option HookBehavior → List (String × String) × Option String
  | none => ([], none)
  | some (.throwSync e) => ([], some e)
  | some .retFalsy => ([], none)
  | some .retNoCatch => ([], none)
  | some (.retPromise none) => ([], none)
  | some (.retPromise (some e)) => ([(logMsg, e)], none)

/-- `PrivateHelpers.mountComponent`. -/
def mountComponent (c : Component) : List (String × String) × Option String :=
  runHook "Error mounting component" c.componentDidMount

/-- `PrivateHelpers.unmountComponent`. -/
def unmountComponent (c : Component) : List (String × String) × Option String :=
  runHook "Error unmounting component" c.componentWillUnmount

/-- Observable actions of a `ComponentSystem`, in order: peer notification,
event emission, lifecycle hook invocation, diagnostics log, clearing the
instance map, terminating the worker, and the server-peer `enable`
handshake of `super.enable()`. -/
inductive SysEffect where
  | notifyMsg : String → SysEffect
  | emitEv : String → SysEffect
  | unmountCalled : String → SysEffect
  | mountCalled : String → SysEffect
  | logged : String → String → SysEffect
  | clearInstances : SysEffect
  | terminateWorker : SysEffect
  | serverEnable : SysEffect

/-- The fields of a `ComponentSystem` that the claims touch: the
insertion-ordered instance map and the owned worker. -/
structure SysState where
  componentInstances : List (String × Component)
  workerAlive : Bool

/-- `componentInstances.forEach(PrivateHelpers.unmountComponent)`: hooks run
in insertion order; a synchronously thrown exception aborts the iteration
and escapes. -/
def runUnmountHooks : List (String × Component) → List SysEffect × Option String
  | [] => ([], none)
  | (n, c) :: rest =>
    let r := unmountComponent c
    let effs := SysEffect.unmountCalled n :: r.1.map (fun l => SysEffect.logged l.1 l.2)
    match r.2 with
    | some e => (effs, some e)
    | none =>
      let rr := runUnmountHooks rest
      (effs ++ rr.1, rr.2)

def runMountHooks : List (String × Component) → List SysEffect × Option String
  | [] => ([], none)
  | (n, c) :: rest =>
    let r := mountComponent c
    let effs := SysEffect.mountCalled n :: r.1.map (fun l => SysEffect.logged l.1 l.2)
    match r.2 with
    | some e => (effs, some e)
    | none =>
      let rr := runMountHooks rest
      (effs ++ rr.1, rr.2)

/-- `ComponentSystem.unmount`: notify SIGKILL, emit systemWillUnmount,
unmount every instance, clear the map, terminate the worker, emit
systemDidUnmount.  A hook that throws synchronously escapes out of
`forEach`, aborting the remaining steps. -/
def sysUnmount (st : SysState) : SysState × List SysEffect × Option String :=
  let pre := [SysEffect.notifyMsg "SIGKILL", SysEffect.emitEv "systemWillUnmount"]
  let hooks := runUnmountHooks st.componentInstances
  match hooks.2 with
  | some e => (st, pre ++ hooks.1, some e)
  | none =>
    ({ st with componentInstances := [], workerAlive := false },
     pre ++ hooks.1
       ++ [SysEffect.clearInstances, SysEffect.terminateWorker,
           SysEffect.emitEv "systemDidUnmount"],
     none)

/-- `ComponentSystem.enable`: emit systemWillEnable, mount every instance in
insertion order, then `super.enable()`. -/
def sysEnable (st : SysState) : SysState × List SysEffect × Option String :=
  let pre := [SysEffect.emitEv "systemWillEnable"]
  let hooks := runMountHooks st.componentInstances
  match hooks.2 with
  | some e => (st, pre ++ hooks.1, some e)
  | none => (st, pre ++ hooks.1 ++ [SysEffect.serverEnable], none)

/-- Whether a hook throws synchronously when invoked. -/
def syncThrows : Option HookBehavior → Bool
  | some (.throwSync _) => true
  | _ => false

/-- The effects of unmounting a list of instances none of whose hooks throws
synchronously: a hook invocation per instance, each followed by its
diagnostics log entries, in insertion order. -/
def unmountTrace : List (String × Component) → List SysEffect
  | [] => []
  | (n, c) :: rest =>
    (SysEffect.unmountCalled n
      :: (unmountComponent c).1.map (fun l => SysEffect.logged l.1 l.2))
      ++ unmountTrace rest

def mountTrace : List (String × Component) → List SysEffect
  | [] => []
  | (n, c) :: rest =>
    (SysEffect.mountCalled n
      :: (mountComponent c).1.map (fun l => SysEffect.logged l.1 l.2))
      ++ mountTrace rest

theorem runHook_no_throw (msg : String) (b : Option HookBehavior)
    (h : syncThrows b = false) : (runHook msg b).2 = none := by
  cases b with
  | none => rfl
  | some hb =>
    cases hb with
    | throwSync e => simp [syncThrows] at h
    | retFalsy => rfl
    | retNoCatch => rfl
    | retPromise o => cases o <;> rfl

theorem runUnmountHooks_no_throw (l : List (String × Component))
    (h : ∀ p ∈ l, syncThrows (Prod.snd p).componentWillUnmount = false) :
    runUnmountHooks l = (unmountTrace l, none) := by
  induction l with
  | nil => rfl
  | cons p rest ih =>
    obtain ⟨n, c⟩ := p
    have hc : (unmountComponent c).2 = none :=
      runHook_no_throw _ _ (h (n, c) (List.mem_cons_self _ _))
    have hrest := ih (fun q hq => h q (List.mem_cons_of_mem _ hq))
    simp only [runUnmountHooks, unmountTrace, hc, hrest]

theorem runMountHooks_no_throw (l : List (String × Component))
    (h : ∀ p ∈ l, syncThrows (Prod.snd p).componentDidMount = false) :
    runMountHooks l = (mountTrace l, none) := by
  induction l with
  | nil => rfl
  | cons p rest ih =>
    obtain ⟨n, c⟩ := p
    have hc : (mountComponent c).2 = none :=
      runHook_no_throw _ _ (h (n, c) (List.mem_cons_self _ _))
    have hrest := ih (fun q hq => h q (List.mem_cons_of_mem _ hq))
    simp only [runMountHooks, mountTrace, hc, hrest]

/-- A component whose unmount hook throws synchronously. -/
def throwingComponent : Component :=
  { componentDidMount := none, componentWillUnmount := some (.throwSync "boom") }

/-- A component whose hooks return rejected promises. -/
def rejectingComponent : Component :=
  { componentDidMount := some (.retPromise (some "mboom")),
    componentWillUnmount := some (.retPromise (some "boom")) }

/-- A component with benign hooks. -/
def benignComponent : Component :=
  { componentDidMount := some .retFalsy, componentWillUnmount := some .retFalsy }

/-- A system holding only the throwing component. -/
def sysThrowing : SysState :=
  { componentInstances := [("Foo", throwingComponent)], workerAlive := true }

/-- A system holding only the rejecting component. -/
def sysRejecting : SysState :=
  { componentInstances := [("Foo", rejectingComponent)], workerAlive := true }

/-- A system holding one benign component named A. -/
def sysBenign : SysState :=
  { componentInstances := [("A", benignComponent)], workerAlive := true }

/-- C7 (counterexample): a componentWillUnmount hook that throws
synchronously (rather than returning a rejected promise) is not swallowed:
the exception escapes `unmountComponent` to the caller with no diagnostics
log, and `ComponentSystem.unmount` aborts its teardown, leaving the instance
map uncleared and the worker alive. -/
theorem c7_counterexample :
    unmountComponent throwingComponent = ([], some "boom") ∧
    (sysUnmount sysThrowing).2.2 = some "boom" ∧
    (sysUnmount sysThrowing).1.componentInstances = [("Foo", throwingComponent)] ∧
    (sysUnmount sysThrowing).1.workerAlive = true := by
  exact ⟨rfl, rfl, rfl, rfl⟩

/-- C7 (amended): mountComponent and unmountComponent invoke the hook when
it is defined; an error delivered as a rejected returned promise is reported
to the diagnostics sink and swallowed, but an error the hook throws
synchronously propagates to the caller, so ComponentSystem.unmount completes
teardown exactly when no unmount hook of its instances throws
synchronously. -/
theorem c7_hook_errors :
    (∀ c : Component, c.componentWillUnmount = none →
      unmountComponent c = ([], none)) ∧
    (∀ (c : Component) (e : String),
      c.componentWillUnmount = some (.retPromise (some e)) →
      unmountComponent c = ([("Error unmounting component", e)], none)) ∧
    (∀ (c : Component) (e : String), c.componentWillUnmount = some (.throwSync e) →
      unmountComponent c = ([], some e)) ∧
    (∀ (c : Component) (e : String),
      c.componentDidMount = some (.retPromise (some e)) →
      mountComponent c = ([("Error mounting component", e)], none)) ∧
    (∀ (c : Component) (e : String), c.componentDidMount = some (.throwSync e) →
      mountComponent c = ([], some e)) ∧
    (∀ st : SysState,
      (∀ p ∈ st.componentInstances,
        syncThrows (Prod.snd p).componentWillUnmount = false) →
      (sysUnmount st).2.2 = none ∧ (sysUnmount st).1.componentInstances = []) := by
  refine ⟨fun c h => ?_, fun c e h => ?_, fun c e h => ?_, fun c e h => ?_,
    fun c e h => ?_, fun st h => ?_⟩
  · simp [unmountComponent, runHook, h]
  · simp [unmountComponent, runHook, h]
  · simp [unmountComponent, runHook, h]
  · simp [mountComponent, runHook, h]
  · simp [mountComponent, runHook, h]
  · simp [sysUnmount, runUnmountHooks_no_throw st.componentInstances h]

/-- C7 (witness): a rejected-promise unmount hook is logged and swallowed,
and a system holding only that component completes its teardown. -/
theorem c7_witness :
    unmountComponent rejectingComponent
      = ([("Error unmounting component", "boom")], none) ∧
    (sysUnmount sysRejecting).2.2 = none := by
  refine ⟨c7_hook_errors.2.1 rejectingComponent "boom" rfl,
    (c7_hook_errors.2.2.2.2.2 _ ?_).1⟩
  intro p hp
  simp only [sysRejecting, List.mem_singleton] at hp
  subst hp
  rfl

/-- C8: when no hook throws synchronously, `ComponentSystem.unmount`
performs exactly, in order: the SIGKILL notification, the systemWillUnmount
emission, an unmount-hook invocation for every instance in insertion order
(with its diagnostics logs), the clearing of the instance map, the worker
termination, and the systemDidUnmount emission; and
`ComponentSystem.enable` performs the systemWillEnable emission, a
mount-hook invocation for every instance in insertion order, then the
server-peer enable. -/
theorem c8_unmount_enable_sequence (st : SysState)
    (hu : ∀ p ∈ st.componentInstances,
      syncThrows (Prod.snd p).componentWillUnmount = false)
    (hm : ∀ p ∈ st.componentInstances,
      syncThrows (Prod.snd p).componentDidMount = false) :
    sysUnmount st
      = ({ st with componentInstances := [], workerAlive := false },
        [SysEffect.notifyMsg "SIGKILL", SysEffect.emitEv "systemWillUnmount"]
          ++ unmountTrace st.componentInstances
          ++ [SysEffect.clearInstances, SysEffect.terminateWorker,
              SysEffect.emitEv "systemDidUnmount"], none) ∧
    sysEnable st
      = (st, [SysEffect.emitEv "systemWillEnable"]
          ++ mountTrace st.componentInstances
          ++ [SysEffect.serverEnable], none) := by
  constructor
  · simp [sysUnmount, runUnmountHooks_no_throw st.componentInstances hu]
  · simp [sysEnable, runMountHooks_no_throw st.componentInstances hm]

/-- C8 (witness): the concrete sequences for a system holding one benign
component named A. -/
theorem c8_witness :
    sysUnmount sysBenign
      = ({ componentInstances := [], workerAlive := false },
        [SysEffect.notifyMsg "SIGKILL", SysEffect.emitEv "systemWillUnmount",
         SysEffect.unmountCalled "A", SysEffect.clearInstances,
         SysEffect.terminateWorker, SysEffect.emitEv "systemDidUnmount"], none) ∧
    sysEnable sysBenign
      = (sysBenign,
        [SysEffect.emitEv "systemWillEnable", SysEffect.mountCalled "A",
         SysEffect.serverEnable], none) := by
  have h := c8_unmount_enable_sequence sysBenign
    (by intro p hp; simp only [sysBenign, List.mem_singleton] at hp; subst hp; rfl)
    (by intro p hp; simp only [sysBenign, List.mem_singleton] at hp; subst hp; rfl)
  exact h

/-- The registry state a successful registration produces. -/
def afterRegister (st : RegistryState) (name : String) (api : JsClass) :
    RegistryState :=
  { classTags := st.classTags ++ [(api.cid, name)],
    registeredComponents := st.registeredComponents ++ [(name, api.cid)] }

theorem lookupTag_append_none (l : List (Nat × String)) (c : Nat) (t : String)
    (h : lookupTag l c = none) : lookupTag (l ++ [(c, t)]) c = some t := by
  induction l with
  | nil => simp [lookupTag]
  | cons p rest ih =>
    obtain ⟨c0, t0⟩ := p
    simp only [lookupTag] at h ⊢
    by_cases hc : c0 = c
    · rw [if_pos hc] at h; cases h
    · rw [if_neg hc] at h ⊢
      exact ih h

theorem lookupReg_append_none (l : List (String × Nat)) (n : String) (c : Nat)
    (h : lookupReg l n = none) : lookupReg (l ++ [(n, c)]) n = some c := by
  induction l with
  | nil => simp [lookupReg]
  | cons p rest ih =>
    obtain ⟨n0, c0⟩ := p
    simp only [lookupReg] at h ⊢
    by_cases hn : n0 = n
    · rw [if_pos hn] at h; cases h
    · rw [if_neg hn] at h ⊢
      exact ih h

/-- The class with identity 0. -/
def clsA : JsClass := { cid := 0, isFunc := true }

/-- The registry after registering `clsA` under the empty name. -/
def regEmptyName : RegistryState :=
  { classTags := [(0, "")], registeredComponents := [("", 0)] }

/-- C6 (counterexample): registering a class under the empty name succeeds
(none of the three checks rejects it) and tags the class with the empty
string, yet `getComponentName` returns null for it, not the registered
name, because the source reads the tag through a truthiness guard
(`klass[componentNameSymbol] || null`). -/
theorem c6_counterexample :
    registerComponent "" clsA emptyRegistry = Except.ok regEmptyName ∧
    lookupTag regEmptyName.classTags clsA.cid = some "" ∧
    getComponentName regEmptyName clsA = none := by
  exact ⟨rfl, rfl, rfl⟩

/-- C6 (amended): registering a class already carrying the hidden tag
throws; registering any class under a name already present in the global
registry throws; a non-function argument throws; and a successful
registration tags the class with its name and inserts it into the registry,
after which re-registration of either the class or the name throws — and
`getComponentName` returns the registered name whenever that name is
nonempty (the truthiness guard maps an empty-string tag to null). -/
theorem c6_registry_uniqueness :
    (∀ (st : RegistryState) (name : String) (api : JsClass),
      (lookupTag st.classTags api.cid).isSome = true →
      registerComponent name api st
        = Except.error "The API you are trying to register is already registered") ∧
    (∀ (st : RegistryState) (name : String) (api : JsClass),
      (lookupReg st.registeredComponents name).isSome = true →
      isErr (registerComponent name api st) = true) ∧
    (∀ (st : RegistryState) (name : String) (api : JsClass),
      api.isFunc = false → isErr (registerComponent name api st) = true) ∧
    (∀ (st : RegistryState) (name : String) (api : JsClass),
      lookupTag st.classTags api.cid = none →
      lookupReg st.registeredComponents name = none →
      api.isFunc = true →
      registerComponent name api st = Except.ok (afterRegister st name api) ∧
      lookupTag (afterRegister st name api).classTags api.cid = some name ∧
      lookupReg (afterRegister st name api).registeredComponents name
        = some api.cid ∧
      (name ≠ "" →
        getComponentName (afterRegister st name api) api = some name)) := by
  refine ⟨fun st name api h => ?_, fun st name api h => ?_,
    fun st name api h => ?_, fun st name api h1 h2 h3 => ?_⟩
  · simp [registerComponent, registerComponentImpl, h]
  · cases htag : (lookupTag st.classTags api.cid).isSome <;>
      simp [registerComponent, registerComponentImpl, htag, h, isErr]
  · cases htag : (lookupTag st.classTags api.cid).isSome <;>
      cases hreg : (lookupReg st.registeredComponents name).isSome <;>
      simp [registerComponent, registerComponentImpl, htag, hreg, h, isErr]
  · refine ⟨?_, ?_, ?_, fun hne => ?_⟩
    · simp [registerComponent, registerComponentImpl, afterRegister, h1, h2, h3]
    · exact lookupTag_append_none _ _ _ h1
    · exact lookupReg_append_none _ _ _ h2
    · simp [getComponentName, afterRegister, lookupTag_append_none _ _ _ h1, hne]

/-- The registry after registering `clsA` under the name Foo. -/
def regFoo : RegistryState :=
  { classTags := [(0, "Foo")], registeredComponents := [("Foo", 0)] }

/-- C6 (witness): registering class 0 as Foo on the fresh registry succeeds
and is readable back; registering the now-tagged class again throws, as
does reusing the name Foo for class 1, as does registering the non-function
value 2. -/
theorem c6_witness :
    registerComponent "Foo" clsA emptyRegistry = Except.ok regFoo ∧
    registerComponent "Bar" clsA regFoo
      = Except.error "The API you are trying to register is already registered" ∧
    isErr (registerComponent "Foo" { cid := 1, isFunc := true } regFoo) = true ∧
    isErr (registerComponent "Baz" { cid := 2, isFunc := false } emptyRegistry)
      = true ∧
    getComponentName regFoo clsA = some "Foo" := by
  refine ⟨(c6_registry_uniqueness.2.2.2 emptyRegistry "Foo" clsA rfl rfl rfl).1,
    c6_registry_uniqueness.1 regFoo "Bar" clsA rfl,
    c6_registry_uniqueness.2.1 regFoo "Foo" { cid := 1, isFunc := true } rfl,
    c6_registry_uniqueness.2.2.1 emptyRegistry "Baz" { cid := 2, isFunc := false } rfl,
    ?_⟩
  have h := (c6_registry_uniqueness.2.2.2 emptyRegistry "Foo" clsA rfl rfl rfl).2.2.2
    (by decide)
  exact h

/-!
Proxy facade `api(prefix?)`.  Each proxy object carries its captured prefix
(`none` for the unprefixed root) and its backing target object, the
per-property cache.  The values a property access can produce are the base
object prototype (for `__proto__`/`prototype`), a nested namespace proxy,
and the three kinds of handler closures; each handler captures the full
method name it will use against the dispatcher or the peer when invoked.
-/

inductive ProxyVal where
  | protoVal : ProxyVal
  | nsVal : String → ProxyVal
  | onVal : String → ProxyVal
  | emitVal : String → ProxyVal
  | callVal : String → ProxyVal

/-- Side effects around the proxy: storing into the per-property cache at
access time; registering a dispatcher listener, issuing a call, or sending a
notification when an obtained handler is invoked. -/
inductive ProxyEffect where
  | cached : String → ProxyEffect
  | listenerAdded : String → ProxyEffect
  | callIssued : String → ProxyEffect
  | notifySent : String → ProxyEffect

def lookupCache : List (String × ProxyVal) → String → Option ProxyVal
  | [], _ => none
  | (k0, v0) :: rest, k => if k0 = k then some v0 else lookupCache rest k

/-- The `get` trap of the proxy returned by `api(prefix?)`: return the cached
value when present (every cached value is truthy); return the base prototype
for `__proto__`/`prototype` without caching; otherwise build the nested
namespace (unprefixed root) or the on/emit/call handler, cache it and return
it.  Returns the value, the updated cache, and the effects of the access. -/
def proxyGet (pfx : Option String) (cache : List (String × ProxyVal))
    (prop : String) : ProxyVal × List (String × ProxyVal) × List ProxyEffect :=
  match lookupCache cache prop with
  | some v => (v, cache, [])
  | none =>
    if prop = "__proto__" ∨ prop = "prototype" then (.protoVal, cache, [])
    else
      let v : ProxyVal :=
        match pfx with
        | none => .nsVal (prop ++ ".")
        | some pre =>
          if prop.take 2 = "on" ∧ 3 < prop.length then .onVal (pre ++ prop.drop 2)
          else if prop.take 4 = "emit" ∧ 5 < prop.length then
            .emitVal (pre ++ prop.drop 4)
          else .callVal (pre ++ prop)
      (v, cache ++ [(prop, v)], [.cached prop])

/-- Invoking a value obtained from the proxy: only now is a listener
registered, a notification sent, or a call issued. -/
def invokeProxyVal : ProxyVal → List ProxyEffect
  | .onVal e => [.listenerAdded e]
  | .emitVal m => [.notifySent m]
  | .callVal m => [.callIssued m]
  | _ => []

theorem lookupCache_append_none (l : List (String × ProxyVal)) (k : String)
    (v : ProxyVal) (h : lookupCache l k = none) :
    lookupCache (l ++ [(k, v)]) k = some v := by
  induction l with
  | nil => simp [lookupCache]
  | cons p rest ih =>
    obtain ⟨k0, v0⟩ := p
    simp only [lookupCache] at h ⊢
    by_cases hk : k0 = k
    · rw [if_pos hk] at h; cases h
    · rw [if_neg hk] at h ⊢
      exact ih h

/-- C9: property access on an `api()` proxy is cached per property: reading
the same property a second time on the same namespace object (any proxy,
with any prefix, at any cache state — in particular a reused intermediate
namespace such as root.Foo) returns the identical cached value, leaves the
cache unchanged and performs no side effect at all; and even the first
access at most stores into the cache — it never registers a listener,
issues a call or sends a notification, those effects belonging to handler
invocation only. -/
theorem c9_proxy_caching (pfx : Option String)
    (cache : List (String × ProxyVal)) (prop : String) :
    (proxyGet pfx (proxyGet pfx cache prop).2.1 prop).1
      = (proxyGet pfx cache prop).1 ∧
    (proxyGet pfx (proxyGet pfx cache prop).2.1 prop).2.1
      = (proxyGet pfx cache prop).2.1 ∧
    (proxyGet pfx (proxyGet pfx cache prop).2.1 prop).2.2 = [] ∧
    ((proxyGet pfx cache prop).2.2 = []
      ∨ (proxyGet pfx cache prop).2.2 = [ProxyEffect.cached prop]) := by
  cases h : lookupCache cache prop with
  | some v =>
    simp [proxyGet, h]
  | none =>
    by_cases hp : prop = "__proto__" ∨ prop = "prototype"
    · simp [proxyGet, h, hp]
    · have h2 := lookupCache_append_none cache prop
        (match pfx with
          | none => ProxyVal.nsVal (prop ++ ".")
          | some pre =>
            if prop.take 2 = "on" ∧ 3 < prop.length then
              ProxyVal.onVal (pre ++ prop.drop 2)
            else if prop.take 4 = "emit" ∧ 5 < prop.length then
              ProxyVal.emitVal (pre ++ prop.drop 4)
            else ProxyVal.callVal (pre ++ prop)) h
      simp [proxyGet, h, hp, h2]

/-- C2 (witness): concrete instance at pending id 1 and the response with
result 7. -/
theorem c2_witness :
    (processMessage stPending1 (some msgResult7)).1 = stPending1 ∧
    processMessage (processMessage stPending1 (some msgResult7)).1
        (some msgResult7)
      = processMessage stPending1 (some msgResult7) :=
  c2_pending_table_unchanged stPending1 (some msgResult7)

/-- C9 (witness): concrete instance at the unprefixed root and the property
Foo. -/
theorem c9_witness :
    (proxyGet none (proxyGet none [] "Foo").2.1 "Foo").1
      = (proxyGet none [] "Foo").1 ∧
    (proxyGet none (proxyGet none [] "Foo").2.1 "Foo").2.1
      = (proxyGet none [] "Foo").2.1 ∧
    (proxyGet none (proxyGet none [] "Foo").2.1 "Foo").2.2 = [] ∧
    ((proxyGet none [] "Foo").2.2 = []
      ∨ (proxyGet none [] "Foo").2.2 = [ProxyEffect.cached "Foo"]) :=
  c9_proxy_caching none [] "Foo"

/-- C10 (witness): concrete instance at the fresh client and the method m. -/
theorem c10_witness :
    typeofJs JsValue.null = "object" ∧
    call initialClientState "m" JsValue.null ≠ Except.error structuredDataMsg ∧
    notify initialClientState "m" JsValue.null ≠ Except.error structuredDataMsg ∧
    sentOf (callEvents initialClientState "m" JsValue.null)
        ++ (callState initialClientState "m" JsValue.null).requestQueue
      = initialClientState.requestQueue
        ++ [WireMessage.request (initialClientState.nextMessageId + 1) "m"
            JsValue.null] ∧
    sentOf (notifyEvents initialClientState "m" JsValue.null)
        ++ (notifyState initialClientState "m" JsValue.null).requestQueue
      = initialClientState.requestQueue
        ++ [WireMessage.notification "m" JsValue.null] :=
  c10_null_params initialClientState "m"
